import Mathlib

/-!
Verification development for the CT-SaaS torrent lifecycle core.

This file gives a shallow embedding, translated from the Go sources, of the
parts of the system that the checked properties speak about:

* the status-update values built each tick by the engine
  (`backend/internal/torrent/engine.go`, `buildUpdate`),
* the reducer that consumes updates and commits them to the durable store
  (`cmd/server/main.go`, `processTorrentUpdates`, together with the SQL
  operations of `internal/database`),
* the path-traversal guards (`engine.go` `GetFilePath`, the disk fallback in
  `handlers/torrent.go` `Download`, and `torrent/zipper.go`),
* the download-token consumption path (`handlers/torrent.go` `Download`),
* the quota gate (`handlers/torrent.go` `checkQuota` / `AddTorrent`),
* the byte-range handler (`handlers/torrent.go` `handleRangeRequest`),
* the bounded update channel (`engine.go` `sendUpdate` / `AddMagnet`), and
* the startup reload path (`engine.go` `ReloadTorrent`).

Machine integers of the source (int64, int) are modelled as `Int`; Go float64
quantities (progress, speeds) are modelled as `ℚ`; timestamps are `Int`
seconds, with `time.AddDate(0, 0, d)` modelled as adding `d * 86400` seconds.
-/

namespace CTSaaS

/-- A file inside a torrent; mirrors `models.TorrentFile` (path, size,
progress, priority). -/
structure TorrentFile where
  path : String
  size : Int
  progress : ℚ
  priority : Int
deriving Repr, DecidableEq

/-- A status update produced by the engine; mirrors `torrent.TorrentUpdate`
in `engine.go`.  UUIDs are abstracted to `Nat`. -/
structure TorrentUpdate where
  id : Nat
  infoHash : String
  status : String
  progress : ℚ
  downloaded : Int
  uploaded : Int
  downloadSpeed : ℚ
  uploadSpeed : ℚ
  peers : Int
  seeds : Int
  name : String
  totalSize : Int
  files : List TorrentFile
  error : String
deriving Repr, DecidableEq

/-- The durable `torrents` row; mirrors `models.Torrent` restricted to the
columns the reducer writes. -/
structure TorrentRecord where
  id : Nat
  userId : Nat
  infoHash : String
  name : String
  magnetURI : String
  status : String
  totalSize : Int
  downloadedSize : Int
  uploadedSize : Int
  downloadSpeed : ℚ
  uploadSpeed : ℚ
  progress : ℚ
  peers : Int
  seeds : Int
  files : List TorrentFile
  errorMessage : Option String
  completedAt : Option Int
  expiresAt : Option Int
deriving Repr, DecidableEq

/-- A row of `usage_logs`; mirrors `models.UsageLog`. -/
structure UsageLog where
  userId : Nat
  action : String
  bytesTransferred : Int
  metadata : String
deriving Repr, DecidableEq

/-- The durable state the reducer touches for one torrent: its `torrents`
row and the append-only `usage_logs`. -/
structure DBState where
  record : TorrentRecord
  usageLogs : List UsageLog
deriving Repr, DecidableEq

/-- A `subscriptions` row as read by the reducer and the quota gate
(`plan`, `retention_days`). -/
structure SubRow where
  plan : String
  retentionDays : Int
deriving Repr, DecidableEq

/-- `database.UpdateTorrentStatus`: the single UPDATE statement of the
progress path. -/
def UpdateTorrentStatus (status : String) (progress : ℚ) (downloaded uploaded : Int)
    (dlSpeed ulSpeed : ℚ) (peers seeds : Int) (r : TorrentRecord) : TorrentRecord :=
  { r with
    status := status, progress := progress,
    downloadedSize := downloaded, uploadedSize := uploaded,
    downloadSpeed := dlSpeed, uploadSpeed := ulSpeed,
    peers := peers, seeds := seeds }

/-- `database.SetTorrentCompleted`: sets status, progress 100, and
unconditionally overwrites `completed_at = NOW()` and
`expires_at = NOW() + retention_days` (AddDate modelled as whole days). -/
def SetTorrentCompleted (now retentionDays : Int) (r : TorrentRecord) : TorrentRecord :=
  { r with
    status := "completed", progress := 100,
    completedAt := some now,
    expiresAt := some (now + retentionDays * 86400) }

/-- `database.UpdateTorrentName`: persists the canonical name and size. -/
def UpdateTorrentName (name : String) (totalSize : Int) (r : TorrentRecord) : TorrentRecord :=
  { r with name := name, totalSize := totalSize }

/-- `database.UpdateTorrentFiles`: persists the files blob. -/
def UpdateTorrentFiles (files : List TorrentFile) (r : TorrentRecord) : TorrentRecord :=
  { r with files := files }

/-- `database.SetTorrentError`: marks the record failed. -/
def SetTorrentError (errMsg : String) (r : TorrentRecord) : TorrentRecord :=
  { r with status := "failed", errorMessage := some errMsg }

/-- Retention days used by the completion commit: `sub.RetentionDays` when a
subscription row exists, else the literal 1 of `processTorrentUpdates`. -/
def retentionDaysOf : Option SubRow → Int
  | some s => s.retentionDays
  | none => 1

/-- Environment of one reducer step: the subscription row that
`db.GetSubscription(t.UserID)` returns for the record's owner. -/
structure ReducerEnv where
  subscription : Option SubRow
deriving Repr, DecidableEq

/-- One iteration of the reducer loop body of `processTorrentUpdates` in
`cmd/server/main.go`, acting on the update's torrent row (the model assumes
`db.GetTorrent` finds the row, i.e. the lookup in the completion branch
succeeds; zip packaging is scheduled off the commit path and does not touch
this state). -/
def processTorrentUpdate (env : ReducerEnv) (now : Int) (st : DBState)
    (u : TorrentUpdate) : DBState :=
  if u.error ≠ "" then
    { st with record := SetTorrentError u.error st.record }
  else if u.progress ≥ 100 ∧ u.status = "completed" then
    let retention := retentionDaysOf env.subscription
    let r1 := SetTorrentCompleted now retention st.record
    let r2 := if u.name ≠ "" ∧ u.name ≠ "Fetching metadata..." then
                UpdateTorrentName u.name u.totalSize r1 else r1
    let r3 := if u.files ≠ [] then UpdateTorrentFiles u.files r2 else r2
    { record := r3,
      usageLogs := st.usageLogs ++
        [⟨st.record.userId, "download_completed", u.totalSize, u.name⟩] }
  else
    let r1 := UpdateTorrentStatus u.status u.progress u.downloaded u.uploaded
                u.downloadSpeed u.uploadSpeed u.peers u.seeds st.record
    let r2 := if u.name ≠ "" ∧ u.name ≠ "Fetching metadata..." then
                UpdateTorrentName u.name u.totalSize r1 else r1
    let r3 := if u.files ≠ [] then UpdateTorrentFiles u.files r2 else r2
    { st with record := r3 }

/-- The commit the pause handler makes (`handlers/torrent.go`
`PauseTorrent`): persist status "paused" with zeroed speeds and counters. -/
def pauseTorrentCommit (st : DBState) : DBState :=
  let r := UpdateTorrentStatus "paused" st.record.progress st.record.downloadedSize
             st.record.uploadedSize 0 0 0 0 st.record
  { st with record := r }

/-- The engine stats sampled each tick; mirrors the fields of
`anacrolix/torrent` `TorrentStats` that `buildUpdate` reads. -/
structure EngineStats where
  bytesReadData : Int
  bytesWrittenData : Int
  activePeers : Int
  connectedSeeders : Int
deriving Repr, DecidableEq

/-- Per-file view the engine exposes (`f.Path()`, `f.Length()`,
`f.BytesCompleted()`). -/
structure FileView where
  path : String
  length : Int
  bytesCompleted : Int
deriving Repr, DecidableEq

/-- The engine-side view of one torrent at a tick: whether metadata is
present (`t.Info() != nil`), name, total length, completed bytes, seeding
flag, stats and file list. -/
structure TorrentView where
  hasInfo : Bool
  name : String
  length : Int
  bytesCompleted : Int
  seeding : Bool
  stats : EngineStats
  files : List FileView
deriving Repr, DecidableEq

/-- The per-file entry `buildUpdate` appends for each engine file: path,
length, per-file progress, priority 2 (normal). -/
def tickFileEntry (f : FileView) : TorrentFile :=
  { path := f.path, size := f.length,
    progress :=
      if f.length > 0 then (f.bytesCompleted : ℚ) / (f.length : ℚ) * 100 else 0,
    priority := 2 }

/-- `Engine.buildUpdate` of `engine.go`: the per-tick `TorrentUpdate`
builder.  `firstTick` models `mt.lastUpdate.IsZero()`, `elapsed` the
wall-clock seconds since the previous tick.  Note the speed computation of
the source divides the engine's cumulative counters by the elapsed time
without subtracting the previous counters. -/
def buildUpdate (id : Nat) (infoHash : String) (t : TorrentView)
    (firstTick : Bool) (elapsed : ℚ) : TorrentUpdate :=
  if t.hasInfo = false then
    { id := id, infoHash := infoHash, status := "pending", progress := 0,
      downloaded := 0, uploaded := 0, downloadSpeed := 0, uploadSpeed := 0,
      peers := 0, seeds := 0, name := "Fetching metadata...", totalSize := 0,
      files := [], error := "" }
  else
    { id := id, infoHash := infoHash,
      status :=
        if t.bytesCompleted ≥ t.length then "completed"
        else if t.seeding = true then "seeding"
        else if t.stats.activePeers > 0 then "downloading"
        else "stalled",
      progress :=
        if t.length > 0 then (t.bytesCompleted : ℚ) / (t.length : ℚ) * 100 else 0,
      downloaded := t.bytesCompleted,
      uploaded := t.stats.bytesWrittenData,
      downloadSpeed :=
        if firstTick = true then 0
        else if elapsed > 0 then (t.stats.bytesReadData : ℚ) / elapsed else 0,
      uploadSpeed :=
        if firstTick = true then 0
        else if elapsed > 0 then (t.stats.bytesWrittenData : ℚ) / elapsed else 0,
      peers := t.stats.activePeers,
      seeds := t.stats.connectedSeeders,
      name := t.name,
      totalSize := t.length,
      files := t.files.map tickFileEntry,
      error := "" }

/-- The tick speed as the specification words it: difference of the current
and previous cumulative read counters divided by the elapsed time.  Kept
separate from `buildUpdate` (which is translated from the source) so the two
can be compared. -/
def specTickSpeed (lastCumRead cumRead : Int) (elapsed : ℚ) : ℚ :=
  ((cumRead - lastCumRead : Int) : ℚ) / elapsed

/-! ### Path canonicalisation and the traversal guards

`filepath.Join(dir, rel)` in Go concatenates with a separator and applies
the lexical `filepath.Clean`.  For rooted paths, `Clean` drops empty and `.`
components and resolves `..` against the preceding component (a `..` at the
root is discarded).  `strings.HasPrefix` is plain string-prefix.  Paths are
modelled as strings over the separator `/`; splitting and prefix tests work
on the underlying character lists so that everything evaluates. -/

/-- Split a character list on the path separator. -/
def splitSlash : List Char → List (List Char)
  | [] => [[]]
  | c :: rest =>
    let r := splitSlash rest
    if c = '/' then [] :: r
    else
      match r with
      | [] => [[c]]
      | h :: t => (c :: h) :: t

/-- The segments of a path string. -/
def pathSegs (s : String) : List String :=
  (splitSlash s.data).map (fun l => String.mk l)

/-- One component step of `filepath.Clean` on a rooted path: empty and `.`
segments vanish, `..` pops the previous surviving segment (discarded at the
root). -/
def cleanSegsStep (acc : List String) (c : String) : List String :=
  if c = "" then acc
  else if c = "." then acc
  else if c = ".." then acc.dropLast
  else acc ++ [c]

/-- The component pass of `filepath.Clean` on a rooted path. -/
def cleanSegs (segs : List String) : List String :=
  segs.foldl cleanSegsStep []

/-- `filepath.Clean` of a rooted path, rebuilt from its cleaned segments. -/
def cleanAbs (p : String) : String :=
  "/" ++ String.intercalate "/" (cleanSegs (pathSegs p))

/-- `filepath.Join(dir, rel)` for a rooted `dir`: concatenate with the
separator, then clean. -/
def joinClean (dir rel : String) : String :=
  cleanAbs (dir ++ "/" ++ rel)

/-- `strings.HasPrefix(s, pre)`, computed over the character lists. -/
def strHasPre (pre s : String) : Bool :=
  List.isPrefixOf pre.data s.data

/-- `Engine.GetFilePath` of `engine.go`, the part after the file is found:
join the engine-supplied relative path with `download_dir` and accept it only
if the joined path has `download_dir` as a string prefix. -/
def getFilePathGuard (downloadDir relPath : String) : Option String :=
  let fullPath := joinClean downloadDir relPath
  if strHasPre downloadDir fullPath then some fullPath else none

/-- The disk-fallback guard of the `Download` handler
(`handlers/torrent.go`): `HasPrefix(Clean(Join(dir, fp)), Clean(dir))`. -/
def downloadDiskCheck (downloadDir filePath : String) : Bool :=
  strHasPre (cleanAbs downloadDir) (cleanAbs (joinClean downloadDir filePath))

/-- The per-entry guard of `CreateZipFromFiles` (`zipper.go`): an entry is
included only when `HasPrefix(Clean(Join(dir, f)), Clean(dir))`. -/
def zipEntryCheck (downloadDir filePath : String) : Bool :=
  strHasPre (cleanAbs downloadDir) (cleanAbs (joinClean downloadDir filePath))

/-- A path `p` lies within directory `dir` when it equals `dir` or extends it
past a separator; `escapes` is the complement.  This is the notion the
specification intends by "prefix-bound by download_dir". -/
def pathWithin (dir p : String) : Bool :=
  p == dir || strHasPre (dir ++ "/") p

/-! ### Download-token consumption (`Download` handler, `handlers/torrent.go`) -/

/-- A `download_tokens` row as the handler reads it. -/
structure DownloadTokenRow where
  expiresAt : Int
  downloadCount : Int
  maxDownloads : Int
deriving Repr, DecidableEq

/-- Outcome of one `GET /download/:token` attempt, up to the file-serving
stage. -/
inductive DownloadStatus where
  | ok200
  | gone410
  | notFound404
deriving Repr, DecidableEq

/-- One attempt of the `Download` handler on an existing token row:
`time.Now().After(expires_at)` → 410, `download_count >= max_downloads` →
410, missing torrent row → 404, otherwise the count is incremented and the
file is served. -/
def downloadAttempt (now : Int) (torrentFound : Bool) (tok : DownloadTokenRow) :
    DownloadStatus × DownloadTokenRow :=
  if now > tok.expiresAt then (.gone410, tok)
  else if tok.downloadCount ≥ tok.maxDownloads then (.gone410, tok)
  else if torrentFound = false then (.notFound404, tok)
  else (.ok200, { tok with downloadCount := tok.downloadCount + 1 })

/-- A sequential run of `n` download attempts against the same token row. -/
def runAttempts : Nat → Int → Bool → DownloadTokenRow →
    List DownloadStatus × DownloadTokenRow
  | 0, _, _, tok => ([], tok)
  | n + 1, now, found, tok =>
    let step := downloadAttempt now found tok
    let rest := runAttempts n now found step.2
    (step.1 :: rest.1, rest.2)

/-! ### Quota gate (`checkQuota` and `AddTorrent`, `handlers/torrent.go`) -/

/-- A plan's limits; mirrors `models.PlanLimits`. -/
structure PlanLimits where
  downloadLimitGB : Int
  concurrentLimit : Int
  retentionDays : Int
  priceMonthly : Int
deriving Repr, DecidableEq

/-- The `models.Plans` table of `config.go`. -/
def plansTable (name : String) : Option PlanLimits :=
  if name = "free" then some ⟨2, 1, 1, 0⟩
  else if name = "starter" then some ⟨50, 3, 7, 500⟩
  else if name = "pro" then some ⟨500, 10, 30, 1500⟩
  else if name = "unlimited" then some ⟨-1, 25, 90, 3000⟩
  else none

/-- The limits `checkQuota` uses: start from `Plans["free"]`, override when
the subscription row exists and its plan name is in the table. -/
def quotaLimits : Option SubRow → PlanLimits
  | none => ⟨2, 1, 1, 0⟩
  | some s => (plansTable s.plan).getD ⟨2, 1, 1, 0⟩

/-- Outcome of `checkQuota`. -/
inductive QuotaCheck where
  | allowed
  | concurrentLimited
  | bandwidthLimited
deriving Repr, DecidableEq

/-- `checkQuota`: the concurrent-limit test runs first, then the monthly
bandwidth test (skipped for unlimited plans, `DownloadLimitGB <= 0`). -/
def checkQuota (sub : Option SubRow) (activeCount : Int) (monthlyUsage : Int) :
    QuotaCheck :=
  let limits := quotaLimits sub
  if activeCount ≥ limits.concurrentLimit then .concurrentLimited
  else if limits.downloadLimitGB > 0 ∧
          monthlyUsage ≥ limits.downloadLimitGB * (1024 * 1024 * 1024) then
    .bandwidthLimited
  else .allowed

/-- `database.CountActiveTorrents`: the user's rows with status in
`pending`/`downloading`. -/
def countActiveTorrents (uid : Nat) (records : List TorrentRecord) : Nat :=
  (records.filter (fun r =>
    r.userId == uid && (r.status == "pending" || r.status == "downloading"))).length

/-- The in-memory registry of the engine, keyed by infohash. -/
structure EngineState where
  keys : List String
deriving Repr, DecidableEq

/-- The state `AddTorrent` can touch: the `torrents` rows and the engine
registry. -/
structure AppState where
  records : List TorrentRecord
  engine : EngineState
deriving Repr, DecidableEq

/-- Outcome of `POST /torrents`. -/
inductive AddTorrentResult where
  | badRequest (msg : String)
  | forbiddenQuota (code : String)
  | conflictExists
  | okExisting
  | created (id : Nat)
deriving Repr, DecidableEq

/-- The row `CreateTorrent` inserts after a fresh `AddMagnet` (status
"pending", empty name, zero size). -/
def mkPendingRecord (id uid : Nat) (ih magnet : String) : TorrentRecord :=
  { id := id, userId := uid, infoHash := ih, name := "", magnetURI := magnet,
    status := "pending", totalSize := 0, downloadedSize := 0, uploadedSize := 0,
    downloadSpeed := 0, uploadSpeed := 0, progress := 0, peers := 0, seeds := 0,
    files := [], errorMessage := none, completedAt := none, expiresAt := none }

/-- The magnet branch of the `AddTorrent` handler: body parse, quota gate,
magnet validation, engine `AddMagnet` (duplicate infohash returns the
"exists" status and mutates nothing), then `CreateTorrent`.  `infoHashOf`
abstracts the infohash the engine derives from the magnet. -/
def addTorrentHandler (st : AppState) (uid : Nat) (sub : Option SubRow)
    (monthlyUsage : Int) (magnetURI : String) (infoHashOf : String → String)
    (newId : Nat) : AddTorrentResult × AppState :=
  match checkQuota sub (countActiveTorrents uid st.records) monthlyUsage with
  | .concurrentLimited => (.forbiddenQuota "CONCURRENT_LIMIT", st)
  | .bandwidthLimited => (.forbiddenQuota "BANDWIDTH_LIMIT", st)
  | .allowed =>
    if magnetURI = "" then (.badRequest "magnet_uri or torrent_url required", st)
    else if magnetURI.startsWith "magnet:" = false then
      (.badRequest "invalid magnet URI", st)
    else
      let ih := infoHashOf magnetURI
      if st.engine.keys.contains ih then
        if (st.records.filter (fun r => r.userId == uid && r.infoHash == ih)).length > 0
        then (.okExisting, st)
        else (.conflictExists, st)
      else
        let st1 : AppState := { st with engine := ⟨st.engine.keys ++ [ih]⟩ }
        (.created newId,
          { st1 with records := st1.records ++ [mkPendingRecord newId uid ih magnetURI] })

/-! ### Byte-range handling (`handleRangeRequest`, `handlers/torrent.go`) -/

/-- Response of `handleRangeRequest`: either 416 or a 206 with its
`Content-Range` header, `Content-Length`, and body bytes. -/
inductive RangeResponse where
  | invalidRange
  | ok206 (contentRange : String) (contentLength : Int) (body : List Nat)
deriving Repr, DecidableEq

/-- `handleRangeRequest` after the header is parsed into a start value and an
optional end value (an absent end means `size - 1`).  The reader is the byte
list `data` of length `size`; seek + CopyN is drop + take. -/
def handleRangeRequest (data : List Nat) (start : Int) (endPart : Option Int) :
    RangeResponse :=
  let size : Int := data.length
  let e := match endPart with
    | none => size - 1
    | some v => v
  if start > e ∨ start < 0 ∨ e ≥ size then .invalidRange
  else
    .ok206
      ("bytes " ++ toString start ++ "-" ++ toString e ++ "/" ++ toString size)
      (e - start + 1)
      ((data.drop start.toNat).take (e - start + 1).toNat)

/-! ### The bounded update channel (`engine.go`) -/

/-- Capacity of `updateCh` (`make(chan TorrentUpdate, 100)`). -/
def updateChCapacity : Nat := 100

/-- The select/default send of `Engine.sendUpdate`: enqueue when the channel
has room, silently drop otherwise.  Always returns; the sender cannot
block. -/
def offerNonBlocking (q : List TorrentUpdate) (u : TorrentUpdate) :
    List TorrentUpdate :=
  if q.length < updateChCapacity then q ++ [u] else q

/-- A plain (blocking) channel send: `none` means the channel is full and the
sender blocks until a receiver makes room. -/
def offerBlocking (q : List TorrentUpdate) (u : TorrentUpdate) :
    Option (List TorrentUpdate) :=
  if q.length < updateChCapacity then some (q ++ [u]) else none

/-- The send `Engine.sendUpdate` performs for every tick update. -/
def sendUpdateOffer (q : List TorrentUpdate) (u : TorrentUpdate) :
    List TorrentUpdate :=
  offerNonBlocking q u

/-- The failure update the metadata-timeout branch of `Engine.AddMagnet`
builds. -/
def addMagnetTimeoutUpdate (mtId : Nat) (infoHash : String) : TorrentUpdate :=
  { id := mtId, infoHash := infoHash, status := "failed", progress := 0,
    downloaded := 0, uploaded := 0, downloadSpeed := 0, uploadSpeed := 0,
    peers := 0, seeds := 0, name := "", totalSize := 0, files := [],
    error := "timeout waiting for torrent metadata" }

/-- The send the metadata-timeout branch of `Engine.AddMagnet` performs: it
is the plain `e.updateCh <- ...`, not a select/default. -/
def addMagnetTimeoutSend (q : List TorrentUpdate) (mtId : Nat)
    (infoHash : String) : Option (List TorrentUpdate) :=
  offerBlocking q (addMagnetTimeoutUpdate mtId infoHash)

/-- One interleaving step on the channel: a producer offer (non-blocking, as
in `sendUpdate`) or a consumer receive. -/
inductive ChanStep where
  | produce (u : TorrentUpdate)
  | consume
deriving Repr

/-- Apply one step to the channel contents. -/
def chanStepApply (q : List TorrentUpdate) : ChanStep → List TorrentUpdate
  | .produce u => offerNonBlocking q u
  | .consume => q.tail

/-- The channel contents after a sequence of producer/consumer steps starting
from the empty channel. -/
def chanRun (steps : List ChanStep) : List TorrentUpdate :=
  steps.foldl chanStepApply []

/-! ### Startup reload (`Engine.ReloadTorrent`, `engine.go`) -/

/-- How the await-info wait of a reload (or add) ends. -/
inductive WaitOutcome where
  | gotInfo
  | ctxCancelled
  | timedOut
deriving Repr, DecidableEq

/-- What the waiting goroutine does on each outcome. -/
inductive EngineEffect where
  | startAndNotify
  | emitFailed (msg : String)
  | noEffect
deriving Repr, DecidableEq

/-- Whether `ReloadTorrent` arms the asynchronous await-info wait: only for
records whose stored status is neither `completed` nor `seeding`. -/
def reloadArmsWait (status : String) : Bool :=
  status != "completed" && status != "seeding"

/-- The deadline of the armed wait (`time.After(5 * time.Minute)`). -/
def reloadWaitDeadlineSeconds : Nat := 300

/-- The select of the goroutine `ReloadTorrent` arms: metadata arrival starts
the download and sends an update; context cancellation returns; the timeout
branch is empty and returns without any effect. -/
def reloadWaitEffect : WaitOutcome → EngineEffect
  | .gotInfo => .startAndNotify
  | .ctxCancelled => .noEffect
  | .timedOut => .noEffect

/-- The corresponding select in `Engine.AddMagnet`, whose timeout branch does
synthesise a failure update. -/
def addMagnetWaitEffect : WaitOutcome → EngineEffect
  | .gotInfo => .startAndNotify
  | .ctxCancelled => .noEffect
  | .timedOut => .emitFailed "timeout waiting for torrent metadata"

/-! ## Helper lemmas -/

/-- What the completion branch of the reducer commits: `completed_at` and
`expires_at` are overwritten from the processing time, status becomes
`completed`, and one usage row is appended. -/
lemma processTorrentUpdate_completion_commit (env : ReducerEnv) (now : Int)
    (st : DBState) (u : TorrentUpdate) (herr : u.error = "")
    (hp : u.progress ≥ 100) (hs : u.status = "completed") :
    (processTorrentUpdate env now st u).record.completedAt = some now ∧
    (processTorrentUpdate env now st u).record.expiresAt =
      some (now + retentionDaysOf env.subscription * 86400) ∧
    (processTorrentUpdate env now st u).record.status = "completed" ∧
    (processTorrentUpdate env now st u).usageLogs =
      st.usageLogs ++ [⟨st.record.userId, "download_completed", u.totalSize, u.name⟩] := by
  unfold processTorrentUpdate
  rw [if_neg (by simp [herr]), if_pos ⟨hp, hs⟩]
  refine ⟨?_, ?_, ?_, rfl⟩ <;>
    split <;> split <;>
      simp [SetTorrentCompleted, UpdateTorrentName, UpdateTorrentFiles]

/-- On the progress path the reducer persists exactly the update's status. -/
lemma processTorrentUpdate_progress_status (env : ReducerEnv) (now : Int)
    (st : DBState) (u : TorrentUpdate) (herr : u.error = "")
    (hnc : ¬ (u.progress ≥ 100 ∧ u.status = "completed")) :
    (processTorrentUpdate env now st u).record.status = u.status := by
  unfold processTorrentUpdate
  rw [if_neg (by simp [herr]), if_neg hnc]
  split <;> split <;>
    simp [UpdateTorrentStatus, UpdateTorrentName, UpdateTorrentFiles]

/-- Tick updates built by `buildUpdate` never carry an error. -/
lemma buildUpdate_error_empty (id : Nat) (ih : String) (t : TorrentView)
    (ft : Bool) (el : ℚ) : (buildUpdate id ih t ft el).error = "" := by
  unfold buildUpdate
  split <;> rfl

/-- The status of a tick update always lies in the five-element set the
status derivation of `buildUpdate` ranges over. -/
lemma buildUpdate_status_mem (id : Nat) (ih : String) (t : TorrentView)
    (ft : Bool) (el : ℚ) :
    (buildUpdate id ih t ft el).status ∈
      (["pending", "completed", "seeding", "downloading", "stalled"] : List String) := by
  unfold buildUpdate
  split
  · simp
  · show (if t.bytesCompleted ≥ t.length then "completed"
          else if t.seeding = true then "seeding"
          else if t.stats.activePeers > 0 then "downloading"
          else "stalled") ∈ _
    split
    · simp
    · split
      · simp
      · split <;> simp

/-- One `Clean` step keeps every surviving segment non-empty and distinct
from `.` and `..`. -/
lemma cleanSegsStep_good (acc : List String) (c : String)
    (h : ∀ x ∈ acc, x ≠ "" ∧ x ≠ "." ∧ x ≠ "..") :
    ∀ x ∈ cleanSegsStep acc c, x ≠ "" ∧ x ≠ "." ∧ x ≠ ".." := by
  intro x hx
  unfold cleanSegsStep at hx
  by_cases h1 : c = ""
  · rw [if_pos h1] at hx; exact h x hx
  · rw [if_neg h1] at hx
    by_cases h2 : c = "."
    · rw [if_pos h2] at hx; exact h x hx
    · rw [if_neg h2] at hx
      by_cases h3 : c = ".."
      · rw [if_pos h3] at hx
        exact h x (List.dropLast_subset _ hx)
      · rw [if_neg h3] at hx
        rcases List.mem_append.1 hx with hmem | hmem
        · exact h x hmem
        · rw [List.mem_singleton] at hmem
          subst hmem
          exact ⟨h1, h2, h3⟩

/-- After the `Clean` component pass no empty, `.` or `..` segment is left. -/
lemma cleanSegs_good (segs : List String) :
    ∀ x ∈ cleanSegs segs, x ≠ "" ∧ x ≠ "." ∧ x ≠ ".." := by
  suffices h : ∀ (l acc : List String),
      (∀ x ∈ acc, x ≠ "" ∧ x ≠ "." ∧ x ≠ "..") →
      ∀ x ∈ List.foldl cleanSegsStep acc l, x ≠ "" ∧ x ≠ "." ∧ x ≠ ".." by
    intro x hx
    exact h segs [] (by simp) x hx
  intro l
  induction l with
  | nil => intro acc hacc x hx; rw [List.foldl_nil] at hx; exact hacc x hx
  | cons c t ih =>
    intro acc hacc x hx
    rw [List.foldl_cons] at hx
    exact ih _ (cleanSegsStep_good acc c hacc) x hx

/-- A download attempt succeeds exactly when the row is not strictly past
expiry and the counter is below the cap. -/
lemma downloadAttempt_ok_iff (now : Int) (tok : DownloadTokenRow) :
    (downloadAttempt now true tok).1 = DownloadStatus.ok200 ↔
      now ≤ tok.expiresAt ∧ tok.downloadCount < tok.maxDownloads := by
  unfold downloadAttempt
  by_cases h1 : now > tok.expiresAt
  · rw [if_pos h1]; simp; omega
  · rw [if_neg h1]
    by_cases h2 : tok.downloadCount ≥ tok.maxDownloads
    · rw [if_pos h2]; simp; omega
    · rw [if_neg h2, if_neg (by simp)]
      simp
      omega

/-- An authorised attempt serves the file and bumps the counter by one. -/
lemma downloadAttempt_ok_step (now : Int) (tok : DownloadTokenRow)
    (h1 : now ≤ tok.expiresAt) (h2 : tok.downloadCount < tok.maxDownloads) :
    downloadAttempt now true tok =
      (DownloadStatus.ok200, { tok with downloadCount := tok.downloadCount + 1 }) := by
  unfold downloadAttempt
  rw [if_neg (by omega), if_neg (by omega), if_neg (by simp)]

/-- An attempt never changes expiry or cap and raises the counter by at most
one. -/
lemma downloadAttempt_fields (now : Int) (found : Bool) (tok : DownloadTokenRow) :
    (downloadAttempt now found tok).2.maxDownloads = tok.maxDownloads ∧
    (downloadAttempt now found tok).2.expiresAt = tok.expiresAt ∧
    (downloadAttempt now found tok).2.downloadCount ≤ tok.downloadCount + 1 := by
  unfold downloadAttempt
  by_cases h1 : now > tok.expiresAt
  · rw [if_pos h1]
    exact ⟨rfl, rfl, by show tok.downloadCount ≤ tok.downloadCount + 1; omega⟩
  · rw [if_neg h1]
    by_cases h2 : tok.downloadCount ≥ tok.maxDownloads
    · rw [if_pos h2]
      exact ⟨rfl, rfl, by show tok.downloadCount ≤ tok.downloadCount + 1; omega⟩
    · rw [if_neg h2]
      by_cases h3 : found = false
      · rw [if_pos h3]
        exact ⟨rfl, rfl, by show tok.downloadCount ≤ tok.downloadCount + 1; omega⟩
      · rw [if_neg h3]
        exact ⟨rfl, rfl, by show tok.downloadCount + 1 ≤ tok.downloadCount + 1; omega⟩

/-- The counter can never pass the cap in a single attempt. -/
lemma downloadAttempt_count_le (now : Int) (found : Bool) (tok : DownloadTokenRow)
    (h : tok.downloadCount ≤ tok.maxDownloads) :
    (downloadAttempt now found tok).2.downloadCount ≤ tok.maxDownloads := by
  unfold downloadAttempt
  by_cases h1 : now > tok.expiresAt
  · rw [if_pos h1]; exact h
  · rw [if_neg h1]
    by_cases h2 : tok.downloadCount ≥ tok.maxDownloads
    · rw [if_pos h2]; exact h
    · rw [if_neg h2]
      by_cases h3 : found = false
      · rw [if_pos h3]; exact h
      · rw [if_neg h3]; simp; omega

/-- Over any sequential run the counter stays at or below the cap, and the
cap is never mutated. -/
lemma runAttempts_count_le (n : Nat) : ∀ (now : Int) (found : Bool)
    (tok : DownloadTokenRow), tok.downloadCount ≤ tok.maxDownloads →
    (runAttempts n now found tok).2.downloadCount ≤ tok.maxDownloads ∧
    (runAttempts n now found tok).2.maxDownloads = tok.maxDownloads := by
  induction n with
  | zero =>
    intro now found tok h
    exact ⟨h, rfl⟩
  | succ m ih =>
    intro now found tok h
    have hm := (downloadAttempt_fields now found tok).1
    have hc := downloadAttempt_count_le now found tok h
    have hrec := ih now found (downloadAttempt now found tok).2 (by rw [hm]; exact hc)
    unfold runAttempts
    constructor
    · calc (runAttempts m now found (downloadAttempt now found tok).2).2.downloadCount
          ≤ (downloadAttempt now found tok).2.maxDownloads := hrec.1
        _ = tok.maxDownloads := hm
    · rw [hrec.2, hm]

/-- With `k` remaining uses and a live expiry, `k + 1` sequential attempts
give `k` successes followed by one Gone. -/
lemma runAttempts_exhaust (k : Nat) : ∀ (now : Int) (tok : DownloadTokenRow),
    now ≤ tok.expiresAt →
    tok.downloadCount + (k : Int) = tok.maxDownloads →
    (runAttempts (k + 1) now true tok).1 =
      List.replicate k DownloadStatus.ok200 ++ [DownloadStatus.gone410] := by
  induction k with
  | zero =>
    intro now tok hexp hcnt
    have hstep : (downloadAttempt now true tok).1 = DownloadStatus.gone410 := by
      unfold downloadAttempt
      rw [if_neg (by omega), if_pos (by omega)]
    simp [runAttempts, hstep]
  | succ m ih =>
    intro now tok hexp hcnt
    have hlt : tok.downloadCount < tok.maxDownloads := by omega
    have hstep := downloadAttempt_ok_step now tok hexp hlt
    have ih' := ih now { tok with downloadCount := tok.downloadCount + 1 }
      (by simpa using hexp) (by simp; omega)
    show ((downloadAttempt now true tok).1 ::
      (runAttempts (m + 1) now true (downloadAttempt now true tok).2).1) = _
    rw [hstep]
    simp only []
    rw [ih', List.replicate_succ]
    rfl

/-- A non-blocking producer step or a consumer step keeps the channel within
capacity. -/
lemma chanStepApply_le (q : List TorrentUpdate) (s : ChanStep)
    (h : q.length ≤ updateChCapacity) :
    (chanStepApply q s).length ≤ updateChCapacity := by
  cases s with
  | produce u =>
    show (offerNonBlocking q u).length ≤ updateChCapacity
    unfold offerNonBlocking
    by_cases hq : q.length < updateChCapacity
    · rw [if_pos hq]; simp; omega
    · rw [if_neg hq]; exact h
  | consume =>
    show q.tail.length ≤ updateChCapacity
    rw [List.length_tail]
    omega

/-- The capacity bound is inductive over any step sequence. -/
lemma chanRun_le (steps : List ChanStep) : ∀ (q : List TorrentUpdate),
    q.length ≤ updateChCapacity →
    (List.foldl chanStepApply q steps).length ≤ updateChCapacity := by
  induction steps with
  | nil => intro q h; rw [List.foldl_nil]; exact h
  | cons s t ih =>
    intro q h
    rw [List.foldl_cons]
    exact ih _ (chanStepApply_le q s h)

/-! ## Concrete fixtures used by the per-claim counterexamples and witnesses -/

/-- A torrent row that has already been through a completion commit at time
0 with one retention day. -/
def c1Record : TorrentRecord :=
  { id := 1, userId := 7, infoHash := "aa", name := "hello.bin", magnetURI := "m",
    status := "completed", totalSize := 1048576, downloadedSize := 1048576,
    uploadedSize := 0, downloadSpeed := 0, uploadSpeed := 0, progress := 100,
    peers := 0, seeds := 0, files := [], errorMessage := none,
    completedAt := some 0, expiresAt := some 86400 }

/-- Durable state holding `c1Record` with empty usage logs. -/
def c1State : DBState := { record := c1Record, usageLogs := [] }

/-- A replayed completion update (status completed, progress 100). -/
def c1Update : TorrentUpdate :=
  { id := 1, infoHash := "aa", status := "completed", progress := 100,
    downloaded := 1048576, uploaded := 0, downloadSpeed := 0, uploadSpeed := 0,
    peers := 0, seeds := 0, name := "hello.bin", totalSize := 1048576,
    files := [], error := "" }

/-- A free-plan subscription environment for the reducer. -/
def c1Env : ReducerEnv := ⟨some ⟨"free", 1⟩⟩

/-- A freshly completed torrent row owned by user 9 with no prior logs. -/
def c2Record : TorrentRecord :=
  { id := 2, userId := 9, infoHash := "bb", name := "hello.bin", magnetURI := "m2",
    status := "downloading", totalSize := 1048576, downloadedSize := 1000000,
    uploadedSize := 0, downloadSpeed := 0, uploadSpeed := 0, progress := 95,
    peers := 1, seeds := 1, files := [], errorMessage := none,
    completedAt := none, expiresAt := none }

/-- Durable state holding `c2Record` with empty usage logs. -/
def c2State : DBState := { record := c2Record, usageLogs := [] }

/-- A completion update for `c2Record`. -/
def c2Update : TorrentUpdate :=
  { id := 2, infoHash := "bb", status := "completed", progress := 100,
    downloaded := 1048576, uploaded := 0, downloadSpeed := 0, uploadSpeed := 0,
    peers := 0, seeds := 0, name := "hello.bin", totalSize := 1048576,
    files := [], error := "" }

/-- A free-plan subscription environment for the C2 scenario. -/
def c2Env : ReducerEnv := ⟨some ⟨"free", 1⟩⟩

/-- A `downloading` row for user 7 (record A of the quota-gate scenario). -/
def c5Record : TorrentRecord :=
  { mkPendingRecord 3 7 "cc" "m3" with status := "downloading" }

/-- App state for the quota-gate scenario: one active record, its infohash
registered in the engine. -/
def c5State : AppState := ⟨[c5Record], ⟨["cc"]⟩⟩

/-! ## Claims -/

/-- C1 (corrected).  The reducer has no `completed_at` guard: every processed
update with status `completed` and progress 100 re-runs
`SetTorrentCompleted`, which overwrites `completed_at` with the processing
time and `expires_at` with that time plus the retention period, whatever the
record held before. -/
theorem completion_commit_overwrites_timestamps :
    ∀ (env : ReducerEnv) (now : Int) (st : DBState) (u : TorrentUpdate),
    u.error = "" → u.progress ≥ 100 → u.status = "completed" →
    (processTorrentUpdate env now st u).record.completedAt = some now ∧
    (processTorrentUpdate env now st u).record.expiresAt =
      some (now + retentionDaysOf env.subscription * 86400) := by
  intro env now st u herr hp hs
  have h := processTorrentUpdate_completion_commit env now st u herr hp hs
  exact ⟨h.1, h.2.1⟩

/-- C1 counterexample.  A record whose completion was committed at time 0
(`completed_at = some 0`) is replayed a completion update at time 5: both
`completed_at` and `expires_at` change, so replaying completion updates is
not idempotent on these fields. -/
theorem completion_replay_changes_completed_at :
    (processTorrentUpdate c1Env 5 c1State c1Update).record.completedAt ≠
      c1State.record.completedAt ∧
    (processTorrentUpdate c1Env 5 c1State c1Update).record.expiresAt ≠
      c1State.record.expiresAt ∧
    c1State.record.completedAt = some 0 ∧
    c1Update.status = "completed" ∧ c1Update.progress = 100 := by
  decide

/-- C1 witness: the amended statement evaluated on the C1 fixture at time
7. -/
theorem completion_commit_overwrites_timestamps_witness :
    (processTorrentUpdate c1Env 7 c1State c1Update).record.completedAt = some 7 ∧
    (processTorrentUpdate c1Env 7 c1State c1Update).record.expiresAt =
      some (7 + retentionDaysOf c1Env.subscription * 86400) :=
  completion_commit_overwrites_timestamps c1Env 7 c1State c1Update rfl
    (by norm_num [c1Update]) rfl

/-- C2 (corrected).  Each processed completion update appends exactly one
`download_completed` usage row carrying the update's reported total size —
so the row count grows with every replayed completion update instead of
staying at one per torrent. -/
theorem completion_update_appends_one_usage_row :
    ∀ (env : ReducerEnv) (now : Int) (st : DBState) (u : TorrentUpdate),
    u.error = "" → u.progress ≥ 100 → u.status = "completed" →
    (processTorrentUpdate env now st u).usageLogs =
      st.usageLogs ++ [⟨st.record.userId, "download_completed", u.totalSize, u.name⟩] := by
  intro env now st u herr hp hs
  exact (processTorrentUpdate_completion_commit env now st u herr hp hs).2.2.2

/-- C2 counterexample.  Two processed completion updates for the same record
leave two `download_completed` rows, not exactly one. -/
theorem completion_replay_appends_two_usage_rows :
    ((processTorrentUpdate c2Env 1
        (processTorrentUpdate c2Env 0 c2State c2Update) c2Update).usageLogs).length = 2 ∧
    ((processTorrentUpdate c2Env 1
        (processTorrentUpdate c2Env 0 c2State c2Update) c2Update).usageLogs).length ≠ 1 ∧
    (∀ l ∈ (processTorrentUpdate c2Env 1
        (processTorrentUpdate c2Env 0 c2State c2Update) c2Update).usageLogs,
      l.action = "download_completed" ∧ l.bytesTransferred = c2Update.totalSize) := by
  decide

/-- C2 witness: one completion update on the fresh C2 fixture appends exactly
one usage row. -/
theorem completion_update_appends_one_usage_row_witness :
    (processTorrentUpdate c2Env 3 c2State c2Update).usageLogs =
      [⟨c2State.record.userId, "download_completed", c2Update.totalSize, c2Update.name⟩] := by
  have h := completion_update_appends_one_usage_row c2Env 3 c2State c2Update rfl
    (by norm_num [c2Update]) rfl
  simpa using h

/-- C3 (corrected).  Every path the `GetFilePath` guard accepts is the
cleaned join (no empty, `.` or `..` segments survive) and carries
`download_dir` as a *textual* prefix, and paths without that textual prefix
are rejected; the disk-fallback and zip guards test exactly the same textual
prefix.  The test does not require a separator after the prefix, which is
what admits sibling-directory escapes. -/
theorem path_guard_textual_check :
    ∀ (downloadDir relPath p : String),
    (getFilePathGuard downloadDir relPath = some p →
       strHasPre downloadDir p = true ∧
       p = "/" ++ String.intercalate "/" (cleanSegs (pathSegs (downloadDir ++ "/" ++ relPath))) ∧
       ∀ x ∈ cleanSegs (pathSegs (downloadDir ++ "/" ++ relPath)),
         x ≠ "" ∧ x ≠ "." ∧ x ≠ "..") ∧
    (strHasPre downloadDir (joinClean downloadDir relPath) = false →
       getFilePathGuard downloadDir relPath = none) ∧
    downloadDiskCheck downloadDir relPath =
      strHasPre (cleanAbs downloadDir) (cleanAbs (joinClean downloadDir relPath)) ∧
    zipEntryCheck downloadDir relPath = downloadDiskCheck downloadDir relPath := by
  intro dir rel p
  refine ⟨?_, ?_, rfl, rfl⟩
  · intro h
    simp only [getFilePathGuard] at h
    split at h
    · next hc =>
      injection h with h2
      subst h2
      exact ⟨hc, rfl, cleanSegs_good _⟩
    · exact absurd h (by simp)
  · intro h
    simp only [getFilePathGuard]
    rw [if_neg (by simp [h])]

/-- C3 counterexample.  With `download_dir = "/downloads"`, the relative path
`../downloads2/secret` joins and cleans to `/downloads2/secret`, which
escapes the download directory yet is accepted by all three guards. -/
theorem path_guard_admits_sibling_escape :
    getFilePathGuard "/downloads" "../downloads2/secret" = some "/downloads2/secret" ∧
    downloadDiskCheck "/downloads" "../downloads2/secret" = true ∧
    zipEntryCheck "/downloads" "../downloads2/secret" = true ∧
    pathWithin "/downloads" (joinClean "/downloads" "../downloads2/secret") = false := by
  decide

/-- C3 witness: the amended guarantee evaluated on an ordinary accepted
path. -/
theorem path_guard_textual_check_witness :
    strHasPre "/downloads" "/downloads/movie/file.bin" = true :=
  ((path_guard_textual_check "/downloads" "movie/file.bin"
    "/downloads/movie/file.bin").1 (by decide)).1

/-- C4 (corrected).  A download attempt on an existing token succeeds iff
`now ≤ expires_at` (the code rejects only strictly-after expiry, via
`time.Now().After`) and `download_count < max_downloads`; each success
increments the counter by exactly one, the counter never exceeds the cap,
and with a fresh counter the `max_downloads + 1`-th sequential attempt
returns Gone. -/
theorem download_token_consumption :
    (∀ (now : Int) (tok : DownloadTokenRow),
       ((downloadAttempt now true tok).1 = DownloadStatus.ok200 ↔
          now ≤ tok.expiresAt ∧ tok.downloadCount < tok.maxDownloads)) ∧
    (∀ (now : Int) (tok : DownloadTokenRow),
       (downloadAttempt now true tok).1 = DownloadStatus.ok200 →
         (downloadAttempt now true tok).2.downloadCount = tok.downloadCount + 1) ∧
    (∀ (n : Nat) (now : Int) (found : Bool) (tok : DownloadTokenRow),
       tok.downloadCount ≤ tok.maxDownloads →
         (runAttempts n now found tok).2.downloadCount ≤ tok.maxDownloads) ∧
    (∀ (m : Nat) (now e : Int), now ≤ e →
       (runAttempts (m + 1) now true ⟨e, 0, (m : Int)⟩).1 =
         List.replicate m DownloadStatus.ok200 ++ [DownloadStatus.gone410]) := by
  refine ⟨downloadAttempt_ok_iff, ?_, ?_, ?_⟩
  · intro now tok h
    have hcond := (downloadAttempt_ok_iff now tok).1 h
    rw [downloadAttempt_ok_step now tok hcond.1 hcond.2]
  · intro n now found tok h
    exact (runAttempts_count_le n now found tok h).1
  · intro m now e h
    exact runAttempts_exhaust m now ⟨e, 0, (m : Int)⟩ h (by simp)

/-- C4 counterexample.  At the instant `now = expires_at` the handler still
authorises the download (After is strict), although the claimed validity
condition `now < expires_at` is false. -/
theorem download_token_boundary_expiry :
    (downloadAttempt 5 true ⟨5, 0, 10⟩).1 = DownloadStatus.ok200 ∧
    ¬ ((5 : Int) < 5 ∧ (0 : Int) < 10) := by
  decide

/-- C4 witness: a token with cap 2 yields two successes and then Gone on the
third attempt. -/
theorem download_token_consumption_witness :
    (runAttempts 3 0 true ⟨100, 0, (2 : Int)⟩).1 =
      List.replicate 2 DownloadStatus.ok200 ++ [DownloadStatus.gone410] :=
  download_token_consumption.2.2.2 2 0 100 (by norm_num)

/-- C5 (confirmed).  When the user's active count has reached the plan's
concurrent limit, `POST /torrents` answers 403 with code CONCURRENT_LIMIT
and neither the torrent rows nor the engine registry change: the quota gate
runs before any mutation. -/
theorem concurrent_limit_rejects_add :
    ∀ (st : AppState) (uid : Nat) (sub : Option SubRow) (monthlyUsage : Int)
      (magnetURI : String) (infoHashOf : String → String) (newId : Nat),
    (countActiveTorrents uid st.records : Int) ≥ (quotaLimits sub).concurrentLimit →
    addTorrentHandler st uid sub monthlyUsage magnetURI infoHashOf newId =
      (AddTorrentResult.forbiddenQuota "CONCURRENT_LIMIT", st) := by
  intro st uid sub mu magnet f newId h
  have hc : checkQuota sub (countActiveTorrents uid st.records) mu =
      QuotaCheck.concurrentLimited := by
    simp only [checkQuota]
    rw [if_pos h]
  unfold addTorrentHandler
  rw [hc]

/-- C5 witness: the spec scenario — free plan (concurrent 1), one record
`downloading`, a new magnet post is rejected with CONCURRENT_LIMIT and the
state is returned unchanged. -/
theorem concurrent_limit_rejects_add_witness :
    addTorrentHandler c5State 7 (some ⟨"free", 1⟩) 0
      "magnet:?xt=urn:btih:AAA" (fun _ => "dd") 4 =
      (AddTorrentResult.forbiddenQuota "CONCURRENT_LIMIT", c5State) :=
  concurrent_limit_rejects_add c5State 7 (some ⟨"free", 1⟩) 0
    "magnet:?xt=urn:btih:AAA" (fun _ => "dd") 4 (by decide)

/-- C6 (confirmed).  For `Range: bytes=a-b` with `0 ≤ a ≤ b < length` the
handler answers 206 with `Content-Range` reading `bytes a-b/length` and a
body of exactly `b - a + 1` bytes starting at offset `a`; a range with
`a > b`, `a < 0` or `b ≥ length` is answered 416. -/
theorem range_request_semantics :
    ∀ (data : List Nat) (a b : Int),
    ((0 ≤ a → a ≤ b → b < (data.length : Int) →
       handleRangeRequest data a (some b) =
         RangeResponse.ok206
           ("bytes " ++ toString a ++ "-" ++ toString b ++ "/" ++ toString (data.length : Int))
           (b - a + 1)
           ((data.drop a.toNat).take (b - a + 1).toNat) ∧
       (((data.drop a.toNat).take (b - a + 1).toNat).length : Int) = b - a + 1)) ∧
    ((a > b ∨ a < 0 ∨ b ≥ (data.length : Int)) →
       handleRangeRequest data a (some b) = RangeResponse.invalidRange) := by
  intro data a b
  constructor
  · intro h0 hab hb
    constructor
    · simp only [handleRangeRequest]
      rw [if_neg (by omega)]
    · rw [List.length_take, List.length_drop]
      have hmin : (b - a + 1).toNat ≤ data.length - a.toNat := by omega
      rw [min_eq_left hmin]
      omega
  · intro h
    simp only [handleRangeRequest]
    rw [if_pos h]

/-- C6 witness: `bytes=1-2` on a four-byte file gives a 206 with
`Content-Range: bytes 1-2/4` and the two requested bytes. -/
theorem range_request_semantics_witness :
    handleRangeRequest [10, 11, 12, 13] 1 (some 2) =
      RangeResponse.ok206 "bytes 1-2/4" 2 [11, 12] := by
  have h := ((range_request_semantics [10, 11, 12, 13] 1 2).1
    (by norm_num) (by norm_num) (by norm_num)).1
  exact h.trans (by decide)

/-- C7 (corrected).  On ticks after the first the reported speed is the
engine's *cumulative* counter divided by the elapsed time — the previous
counter is never subtracted (the `ManagedTorrent` of the source keeps no
`last_cumulative_read`); on the first tick both speeds are 0. -/
theorem tick_speed_cumulative_over_elapsed :
    ∀ (id : Nat) (ih : String) (t : TorrentView) (ft : Bool) (el : ℚ),
    t.hasInfo = true →
    ((buildUpdate id ih t ft el).downloadSpeed =
       if ft = true then 0 else if el > 0 then (t.stats.bytesReadData : ℚ) / el else 0) ∧
    ((buildUpdate id ih t ft el).uploadSpeed =
       if ft = true then 0 else if el > 0 then (t.stats.bytesWrittenData : ℚ) / el else 0) ∧
    (ft = true →
       (buildUpdate id ih t ft el).downloadSpeed = 0 ∧
       (buildUpdate id ih t ft el).uploadSpeed = 0) := by
  intro id ih t ft el hinfo
  unfold buildUpdate
  rw [if_neg (by simp [hinfo])]
  refine ⟨rfl, rfl, ?_⟩
  intro hft
  constructor <;> simp [hft]

/-- C7 counterexample.  A second tick where the cumulative read counter went
from 100 to 150 over one second: the code reports 150 B/s, while the claimed
difference formula gives 50 B/s. -/
theorem tick_speed_not_counter_difference :
    (buildUpdate 1 "ihx" ⟨true, "x", 1000, 500, false, ⟨150, 0, 3, 1⟩, []⟩
        false 1).downloadSpeed = 150 ∧
    specTickSpeed 100 150 1 = 50 ∧
    (150 : ℚ) ≠ 50 := by
  refine ⟨?_, ?_, by norm_num⟩ <;> norm_num [buildUpdate, specTickSpeed]

/-- C7 witness: the amended formula evaluated on a tick with cumulative read
200 over two seconds. -/
theorem tick_speed_cumulative_over_elapsed_witness :
    (buildUpdate 2 "ihw" ⟨true, "w", 1000, 400, false, ⟨200, 40, 2, 1⟩, []⟩
        false 2).downloadSpeed = 100 := by
  have h := (tick_speed_cumulative_over_elapsed 2 "ihw"
    ⟨true, "w", 1000, 400, false, ⟨200, 40, 2, 1⟩, []⟩ false 2 rfl).1
  rw [h]
  norm_num

/-- C8 (corrected).  `ReloadTorrent` arms the asynchronous await-info wait
with a five-minute deadline exactly for records whose stored status is
neither `completed` nor `seeding`; but its timeout branch is empty — unlike
`AddMagnet`, elapsing the deadline produces no effect at all, so the record
is not moved to `failed`. -/
theorem reload_wait_arming_and_timeout :
    ∀ (status : String),
    (reloadArmsWait status = true ↔ (status ≠ "completed" ∧ status ≠ "seeding")) ∧
    reloadWaitDeadlineSeconds = 300 ∧
    reloadWaitEffect WaitOutcome.timedOut = EngineEffect.noEffect ∧
    addMagnetWaitEffect WaitOutcome.timedOut =
      EngineEffect.emitFailed "timeout waiting for torrent metadata" := by
  intro status
  refine ⟨?_, rfl, rfl, rfl⟩
  simp [reloadArmsWait]

/-- C8 counterexample.  Elapsing the reload deadline yields no effect —
in particular not the failed-update effect the claim requires. -/
theorem reload_timeout_has_no_failed_transition :
    reloadWaitEffect WaitOutcome.timedOut = EngineEffect.noEffect ∧
    EngineEffect.noEffect ≠
      EngineEffect.emitFailed "timeout waiting for torrent metadata" := by
  exact ⟨rfl, by decide⟩

/-- C9 (corrected).  Tick updates go through `sendUpdate`, whose
select/default offer enqueues only below capacity 100 and drops otherwise,
so that sender never blocks and the channel never exceeds 100 entries under
any producer/consumer interleaving; but the metadata-timeout failure update
of `AddMagnet` is sent with a plain blocking send, which blocks (`none`)
whenever the channel is full. -/
theorem update_channel_bounded_nonblocking :
    (∀ steps : List ChanStep, (chanRun steps).length ≤ updateChCapacity) ∧
    (∀ (q : List TorrentUpdate) (u : TorrentUpdate),
       (q.length < updateChCapacity ∧ sendUpdateOffer q u = q ++ [u]) ∨
       (updateChCapacity ≤ q.length ∧ sendUpdateOffer q u = q)) ∧
    (∀ (q : List TorrentUpdate) (mtId : Nat) (ihash : String),
       updateChCapacity ≤ q.length → addMagnetTimeoutSend q mtId ihash = none) := by
  refine ⟨?_, ?_, ?_⟩
  · intro steps
    exact chanRun_le steps [] (by simp)
  · intro q u
    unfold sendUpdateOffer offerNonBlocking
    by_cases hq : q.length < updateChCapacity
    · left; exact ⟨hq, by rw [if_pos hq]⟩
    · right; exact ⟨by omega, by rw [if_neg hq]⟩
  · intro q mtId ihash h
    unfold addMagnetTimeoutSend offerBlocking
    rw [if_neg (by omega)]

/-- C9 counterexample.  On a full channel (100 queued updates) the AddMagnet
timeout send returns `none` — the sender blocks — refuting that every status
update is offered with a non-blocking send. -/
theorem addmagnet_timeout_send_blocks_when_full :
    addMagnetTimeoutSend (List.replicate 100 (addMagnetTimeoutUpdate 0 "cc")) 2 "dd" = none ∧
    sendUpdateOffer (List.replicate 100 (addMagnetTimeoutUpdate 0 "cc"))
        (addMagnetTimeoutUpdate 2 "dd") =
      List.replicate 100 (addMagnetTimeoutUpdate 0 "cc") := by
  constructor
  · unfold addMagnetTimeoutSend offerBlocking
    rw [if_neg (by simp [updateChCapacity])]
  · unfold sendUpdateOffer offerNonBlocking
    rw [if_neg (by simp [updateChCapacity])]

/-- C9 witness: the amended blocking-send statement applied to a concrete
full channel. -/
theorem update_channel_bounded_nonblocking_witness :
    addMagnetTimeoutSend (List.replicate 100 (addMagnetTimeoutUpdate 0 "aa")) 1 "bb" = none :=
  update_channel_bounded_nonblocking.2.2 _ 1 "bb" (by simp [updateChCapacity])

/-- C10 (confirmed).  Every tick status lies in the set pending, completed,
seeding, downloading, stalled — never `paused` — and whatever the pause
handler persisted, committing the next tick update through the reducer
leaves the record with a non-paused status. -/
theorem tick_status_set_and_paused_overwrite :
    ∀ (id : Nat) (ih : String) (t : TorrentView) (ft : Bool) (el : ℚ)
      (env : ReducerEnv) (now : Int) (st : DBState),
    (buildUpdate id ih t ft el).status ∈
      (["pending", "completed", "seeding", "downloading", "stalled"] : List String) ∧
    (buildUpdate id ih t ft el).status ≠ "paused" ∧
    (pauseTorrentCommit st).record.status = "paused" ∧
    (processTorrentUpdate env now (pauseTorrentCommit st)
        (buildUpdate id ih t ft el)).record.status ≠ "paused" := by
  intro id ih t ft el env now st
  have hmem := buildUpdate_status_mem id ih t ft el
  have hne : (buildUpdate id ih t ft el).status ≠ "paused" := by
    intro hcontra
    rw [hcontra] at hmem
    exact absurd hmem (by decide)
  refine ⟨hmem, hne, rfl, ?_⟩
  by_cases hc : (buildUpdate id ih t ft el).progress ≥ 100 ∧
      (buildUpdate id ih t ft el).status = "completed"
  · have h := processTorrentUpdate_completion_commit env now (pauseTorrentCommit st)
      (buildUpdate id ih t ft el) (buildUpdate_error_empty id ih t ft el) hc.1 hc.2
    rw [h.2.2.1]
    decide
  · have h := processTorrentUpdate_progress_status env now (pauseTorrentCommit st)
      (buildUpdate id ih t ft el) (buildUpdate_error_empty id ih t ft el) hc
    rw [h]
    exact hne

end CTSaaS
